import Mathlib

/-!
Shallow embedding of the gin-contrib/slog request-logging middleware
(src/slog.go and src/options.go) and proofs about its decision core:
level selection, skip filtering, record construction and the
per-request logger storage.  Machine time is modelled as an abstract
instant (an integer) together with a UTC flag, mirroring Go's
`time.Time` for the operations the middleware uses (`UTC()` and `Sub`).
External collaborators (the gin framework, `regexp`, `io.Writer`) are
modelled abstractly: a regular expression is a string predicate, an
output writer an opaque identifier.
-/

namespace GinSlog

/-- Go `slog.Level` is an integer severity. -/
abbrev Level := Int

/-- Go `slog.LevelDebug`. -/
def LevelDebug : Level := -4

/-- Go `slog.LevelInfo`. -/
def LevelInfo : Level := 0

/-- Go `slog.LevelWarn`. -/
def LevelWarn : Level := 4

/-- Go `slog.LevelError`. -/
def LevelError : Level := 8

/-- Go `time.Time`: an absolute instant plus the zone marker the
middleware manipulates (`end.UTC()` keeps the instant, sets the flag;
`Sub` compares instants). -/
structure GoTime where
  instant : Int
  isUTC : Bool
deriving DecidableEq, Repr

/-- A value attached to a `slog.Record` attribute by this middleware:
an int, a string, a `time.Duration`, or (in the spec-modelled header
variant) a header map. -/
inductive AttrVal where
  | i (n : Int)
  | s (v : String)
  | d (n : Int)
  | hdrs (m : List (String × List String))
deriving DecidableEq, Repr

/-- Go `slog.Record` as the middleware builds it: timestamp, level,
message and the ordered attribute list added with `record.Add`. -/
structure Record where
  time : GoTime
  level : Level
  msg : String
  attrs : List (String × AttrVal)
deriving DecidableEq, Repr

/-- Go `*slog.Logger` for this middleware's purposes: the text handler
built in `SetLogger` is determined by the output writer and the
configured minimum level; a logger transform may substitute any other
logger value. -/
structure Logger where
  output : Nat
  minLevel : Level
deriving DecidableEq, Repr

/-- The per-request state the middleware reads from `*gin.Context`:
request line data, response data available after the handler chain, the
accumulated `c.Errors` (their messages), the context key store, and the
two instants `time.Now()` returns at the start and end of handling. -/
structure GinContext where
  urlPath : String
  rawQuery : String
  method : String
  clientIP : String
  userAgent : String
  status : Int
  bodySize : Int
  errors : List String
  keys : List (String × Logger)
  startTime : GoTime
  endTime : GoTime
deriving Repr

/-- The middleware configuration (struct `config` in src/slog.go).
Go maps become association lists; a regular expression becomes the
string predicate it denotes; the output writer an opaque id. -/
structure Config where
  logger : Option (GinContext → Logger → Logger)
  context : Option (GinContext → Record → Record)
  utc : Bool
  skipPath : List String
  skipPathRegexps : List (String → Bool)
  skip : Option (GinContext → Bool)
  output : Nat
  defaultLevel : Level
  clientErrorLevel : Level
  serverErrorLevel : Level
  pathLevels : List (String × Level)
  message : String
  specificLevelByStatusCode : List (Int × Level)

/-- First-match association-list lookup, modelling a Go map read
(Go maps hold at most one entry per key). -/
def lookupA {α β : Type} [DecidableEq α] : List (α × β) → α → Option β
  | [], _ => none
  | (k, v) :: rest, x => if k = x then some v else lookupA rest x

/-- The fixed context key `loggerKey` of src/slog.go. -/
def loggerKey : String := "_gin-contrib/logger_"

/-- The base logger `l` built in `SetLogger`: a text handler over
`cfg.output` with minimum level `cfg.defaultLevel`. -/
def baseLogger (cfg : Config) : Logger :=
  { output := cfg.output, minLevel := cfg.defaultLevel }

/-- The per-request logger `rl`: the base logger, or the configured
logger transform applied to it (`if cfg.logger != nil`). -/
def requestLogger (cfg : Config) (c : GinContext) : Logger :=
  match cfg.logger with
  | some f => f c (baseLogger cfg)
  | none => baseLogger cfg

/-- The `path` local of the handler: `c.Request.URL.Path`, with `"?"`
and the raw query appended when the raw query is non-empty. -/
def requestPath (c : GinContext) : String :=
  if c.rawQuery ≠ "" then c.urlPath ++ "?" ++ c.rawQuery else c.urlPath

/-- The Go `cfg.skip != nil && cfg.skip(c)` test. -/
def skipPredicate (cfg : Config) (c : GinContext) : Bool :=
  match cfg.skip with
  | some f => f c
  | none => false

/-- Function `shouldSkipLogging` of src/slog.go: exact match against
the skip set, then the custom predicate, then the regexp list. -/
def shouldSkipLogging (path : String) (skip : List String) (cfg : Config)
    (c : GinContext) : Bool :=
  if skip.contains path || skipPredicate cfg c then true
  else cfg.skipPathRegexps.any fun reg => reg path

/-- Function `getLogLevel` of src/slog.go: specific status-code map,
then the 4xx band, then the >= 500 band, then the path map, then the
default level. -/
def getLogLevel (cfg : Config) (c : GinContext) (path : String) : Level :=
  match lookupA cfg.specificLevelByStatusCode c.status with
  | some lvl => lvl
  | none =>
    if 400 ≤ c.status ∧ c.status < 500 then cfg.clientErrorLevel
    else if 500 ≤ c.status then cfg.serverErrorLevel
    else
      match lookupA cfg.pathLevels path with
      | some lvl => lvl
      | none => cfg.defaultLevel

/-- Function `ParseLevel` of src/slog.go.  Total (it never panics); the
error case returns the fallback `slog.LevelInfo` together with the
error message Go's `fmt.Errorf` formats. -/
def ParseLevel (levelStr : String) : Level × Option String :=
  if levelStr = "debug" then (LevelDebug, none)
  else if levelStr = "info" then (LevelInfo, none)
  else if levelStr = "warn" ∨ levelStr = "warning" then (LevelWarn, none)
  else if levelStr = "error" then (LevelError, none)
  else (LevelInfo, some ("unknown slog level: " ++ levelStr))

/-- Two-digit decimal rendering used by gin's `%02d`. -/
def padTwo (n : Nat) : String :=
  if n < 10 then "0" ++ toString n else toString n

/-- Gin's `errorMsgs.String()` (external collaborator), for errors
carrying no Meta: one `Error #NN: msg` line per accumulated error. -/
def ginErrorsString (errs : List String) : String :=
  String.join (errs.enum.map fun p =>
    "Error #" ++ padTwo (p.1 + 1) ++ ": " ++ p.2 ++ "\n")

/-- The record the handler constructs after the chain returns: end
timestamp (normalised to UTC when configured), message with the error
summary appended when `c.Errors` is non-empty, the resolved level, and
the seven attributes added with `record.Add`. -/
def buildRecord (cfg : Config) (c : GinContext) (path : String) : Record :=
  let endT := if cfg.utc then { c.endTime with isUTC := true } else c.endTime
  let latency := endT.instant - c.startTime.instant
  let msg :=
    if c.errors.length > 0 then
      cfg.message ++ " with errors: " ++ ginErrorsString c.errors
    else cfg.message
  { time := endT
    level := getLogLevel cfg c path
    msg := msg
    attrs :=
      [("status", AttrVal.i c.status),
       ("method", AttrVal.s c.method),
       ("path", AttrVal.s path),
       ("ip", AttrVal.s c.clientIP),
       ("latency", AttrVal.d latency),
       ("user_agent", AttrVal.s c.userAgent),
       ("body_size", AttrVal.i c.bodySize)] }

/-- The record actually dispatched: the record transform `cfg.context`
applied when configured. -/
def finalRecord (cfg : Config) (c : GinContext) (path : String) : Record :=
  match cfg.context with
  | some f => f c (buildRecord cfg c path)
  | none => buildRecord cfg c path

/-- Gin's `c.Set`: store a value under a key (newest entry wins). -/
def ctxSet (keys : List (String × Logger)) (k : String) (v : Logger) :
    List (String × Logger) :=
  (k, v) :: keys

/-- Gin's `c.MustGet` composed with the type assertion, as `Get` of
src/slog.go uses it: `none` models the panic on a missing key. -/
def ginGet (keys : List (String × Logger)) : Option Logger :=
  lookupA keys loggerKey

/-- One observable step of the handler closure, in program order. -/
inductive Event where
  | captureStart
  | evalSkip (result : Bool)
  | setLogger (l : Logger)
  | next
  | emit (r : Record)
deriving DecidableEq, Repr

/-- Everything one invocation of the handler produces. -/
structure RunResult where
  events : List Event
  keys : List (String × Logger)
  emitted : List Record
  finalConfig : Config

/-- The handler closure `SetLogger` returns, as a pure function of the
configuration and the per-request context.  The event list records the
program order of its effects: derive `rl`, capture the start instant,
compute the skip decision into `track`, store the logger, run the
downstream chain (`c.Next()`), then — only when tracked — build and
dispatch one record.  The configuration is threaded through unchanged
because the source never assigns to it. -/
def runHandler (cfg : Config) (c : GinContext) : RunResult :=
  let rl := requestLogger cfg c
  let path := requestPath c
  let track := !shouldSkipLogging path cfg.skipPath cfg c
  let keys := ctxSet c.keys loggerKey rl
  let emitted := if track then [finalRecord cfg c path] else []
  { events :=
      [Event.captureStart, Event.evalSkip (!track), Event.setLogger rl,
       Event.next] ++ emitted.map Event.emit
    keys := keys
    emitted := emitted
    finalConfig := cfg }

/-- Recogniser for the skip-evaluation step. -/
def isEvalSkip : Event → Bool
  | Event.evalSkip _ => true
  | _ => false

/-- Recogniser for the delegation to the downstream chain. -/
def isNext : Event → Bool
  | Event.next => true
  | _ => false

/-- Recogniser for the logger-storing step. -/
def isSetLogger : Event → Bool
  | Event.setLogger _ => true
  | _ => false

/-- Recogniser for a record dispatch. -/
def isEmit : Event → Bool
  | Event.emit _ => true
  | _ => false

/-- Modelled from the spec: the default hidden-header set (the variant
of `SetLogger` that declares and consumes the `hiddenRequestHeaders`
config field is missing from the source tree; src/options.go documents
these defaults for `WithHiddenRequestHeaders`): authorization, cookie,
set-cookie and the auth/csrf/xsrf token headers, stored lowercased. -/
def defaultHiddenRequestHeaders : List String :=
  ["authorization", "cookie", "set-cookie",
   "x-auth-token", "x-csrf-token", "x-xsrf-token"]

/-- Option `WithHiddenRequestHeaders` of src/options.go: every
configured header name is stored lowercased. -/
def mkHiddenRequestHeaders (headers : List String) : List String :=
  headers.map fun h => h.toLower

/-- Modelled from the spec: the header-inclusion part of the
configuration.  src/options.go assigns the fields `withRequestHeader`
and `hiddenRequestHeaders`, but the `config` struct declaring them and
the interceptor code consuming them are missing from the source tree. -/
structure HeaderConfig where
  withRequestHeader : Bool
  hiddenRequestHeaders : List String

/-- Modelled from the spec: header redaction — keep every request
header whose lowercased name is not in the hidden set (the hidden set
is stored lowercased, so the comparison is case-insensitive). -/
def filterHeaders (hidden : List String) (headers : List (String × List String)) :
    List (String × List String) :=
  headers.filter fun h => !(hidden.contains h.1.toLower)

/-- Modelled from the spec: step 6 of the interceptor — when header
inclusion is enabled, attach the redacted header mapping to the record
under the field name `headers`; otherwise leave the record alone. -/
def attachHeaders (hc : HeaderConfig) (reqHeaders : List (String × List String))
    (r : Record) : Record :=
  if hc.withRequestHeader then
    { r with attrs :=
        r.attrs ++ [("headers", AttrVal.hdrs (filterHeaders hc.hiddenRequestHeaders reqHeaders))] }
  else r

/-- The configuration `SetLogger` starts from before options apply:
info/warn/error levels, output id 0 for `os.Stderr`, message
`"Request"` and Go zero values everywhere else. -/
def defaultConfig : Config :=
  { logger := none
    context := none
    utc := false
    skipPath := []
    skipPathRegexps := []
    skip := none
    output := 0
    defaultLevel := LevelInfo
    clientErrorLevel := LevelWarn
    serverErrorLevel := LevelError
    pathLevels := []
    message := "Request"
    specificLevelByStatusCode := [] }

/-- A plain successful request used as a concrete evaluation point. -/
def ctxPlain : GinContext :=
  { urlPath := "/foo"
    rawQuery := ""
    method := "GET"
    clientIP := "1.2.3.4"
    userAgent := "ua"
    status := 200
    bodySize := 2
    errors := []
    keys := []
    startTime := { instant := 10, isUTC := false }
    endTime := { instant := 25, isUTC := false } }

/-- The same request with a non-empty raw query string. -/
def ctxQuery : GinContext :=
  { ctxPlain with rawQuery := "a=1" }

/-- The same request with one accumulated gin error. -/
def ctxErr : GinContext :=
  { ctxPlain with errors := ["boom"] }

/-- A configuration whose custom skip predicate skips every request. -/
def cfgSkipAll : Config :=
  { defaultConfig with skip := some fun _ => true }

/-- A configuration with a path-level entry for the bare path `/foo`. -/
def cfgBareFooLevel : Config :=
  { defaultConfig with pathLevels := [("/foo", LevelDebug)] }

/-- Helper: the boolean skip decision of `shouldSkipLogging`, as the
disjunction of its three sources. -/
theorem shouldSkip_iff (path : String) (skip : List String) (cfg : Config)
    (c : GinContext) :
    shouldSkipLogging path skip cfg c = true ↔
      (path ∈ skip ∨ (∃ f, cfg.skip = some f ∧ f c = true) ∨
        ∃ reg ∈ cfg.skipPathRegexps, reg path = true) := by
  unfold shouldSkipLogging skipPredicate
  rcases hs : cfg.skip with _ | f <;>
    split <;> rename_i hcond <;>
      simp_all [List.elem_iff, List.any_eq_true] <;> tauto

/-- Helper: a non-empty raw query makes the combined path a strictly
longer string than the bare path. -/
theorem requestPath_ne_urlPath (c : GinContext) (h : c.rawQuery ≠ "") :
    requestPath c ≠ c.urlPath := by
  intro he
  have h1 : requestPath c = c.urlPath ++ "?" ++ c.rawQuery := by
    simp [requestPath, h]
  rw [h1] at he
  have h2 := congrArg String.length he
  rw [String.length_append, String.length_append] at h2
  have h3 : String.length "?" = 1 := rfl
  omega

/-- Helper: removing all entries of a different key from an association
list does not change a lookup. -/
theorem lookupA_filter_ne (l : List (String × Level)) (x k : String)
    (hxk : x ≠ k) :
    lookupA (l.filter fun p => p.1 != k) x = lookupA l x := by
  induction l with
  | nil => rfl
  | cons a rest ih =>
    by_cases hak : a.1 = k
    · have hb : (a.1 != k) = false := by simp [hak]
      have hax : ¬ (a.1 = x) := by rw [hak]; exact fun hh => hxk hh.symm
      simp [List.filter_cons, hb, lookupA, hax, ih]
    · have hb : (a.1 != k) = true := by simp [hak]
      by_cases hax : a.1 = x <;>
        simp [List.filter_cons, hb, lookupA, hax, hxk, ih]

/-- C1: for a completed, tracked request the severity is resolved in
strict priority order: the specific status-code map first, then the
[400,500) band, then the >= 500 band, then the path map, then the
default level; and the level of the emitted record (absent a record
transform) is exactly this resolution applied to the request's path. -/
theorem getLogLevel_priority (cfg : Config) (c : GinContext) (path : String) :
    (∀ lvl, lookupA cfg.specificLevelByStatusCode c.status = some lvl →
      getLogLevel cfg c path = lvl) ∧
    (lookupA cfg.specificLevelByStatusCode c.status = none →
      400 ≤ c.status → c.status < 500 →
      getLogLevel cfg c path = cfg.clientErrorLevel) ∧
    (lookupA cfg.specificLevelByStatusCode c.status = none →
      500 ≤ c.status → getLogLevel cfg c path = cfg.serverErrorLevel) ∧
    (lookupA cfg.specificLevelByStatusCode c.status = none → c.status < 400 →
      ∀ lvl, lookupA cfg.pathLevels path = some lvl →
      getLogLevel cfg c path = lvl) ∧
    (lookupA cfg.specificLevelByStatusCode c.status = none → c.status < 400 →
      lookupA cfg.pathLevels path = none →
      getLogLevel cfg c path = cfg.defaultLevel) ∧
    (∀ r ∈ (runHandler cfg c).emitted, cfg.context = none →
      r.level = getLogLevel cfg c (requestPath c)) := by
  refine ⟨?_, ?_, ?_, ?_, ?_, ?_⟩
  · intro lvl h
    simp [getLogLevel, h]
  · intro h h1 h2
    simp only [getLogLevel, h]
    rw [if_pos ⟨h1, h2⟩]
  · intro h h1
    simp only [getLogLevel, h]
    rw [if_neg (by omega), if_pos h1]
  · intro h h1 lvl h2
    simp only [getLogLevel, h]
    rw [if_neg (by omega), if_neg (by omega), h2]
  · intro h h1 h2
    simp only [getLogLevel, h]
    rw [if_neg (by omega), if_neg (by omega), h2]
  · intro r hr hctx
    simp only [runHandler] at hr
    rcases hb : shouldSkipLogging (requestPath c) cfg.skipPath cfg c <;>
      simp [hb] at hr
    rw [hr]
    simp [finalRecord, hctx, buildRecord]

/-- C2: one invocation of the handler emits at most one record, and it
emits none exactly when the combined path is in the skip list, the
custom skip predicate accepts, or some skip regexp matches. -/
theorem emit_zero_or_one_iff_skip (cfg : Config) (c : GinContext) :
    (runHandler cfg c).emitted.length ≤ 1 ∧
      ((runHandler cfg c).emitted = [] ↔
        (requestPath c ∈ cfg.skipPath ∨
          (∃ f, cfg.skip = some f ∧ f c = true) ∨
          ∃ reg ∈ cfg.skipPathRegexps, reg (requestPath c) = true)) := by
  constructor
  · simp only [runHandler]
    rcases shouldSkipLogging (requestPath c) cfg.skipPath cfg c <;> simp
  · rw [← shouldSkip_iff (requestPath c) cfg.skipPath cfg c]
    simp only [runHandler]
    rcases hb : shouldSkipLogging (requestPath c) cfg.skipPath cfg c <;> simp [hb]

/-- C3: ParseLevel maps exactly the five literal level names to their
levels with no error, and every other string to the fallback info level
together with the unrecognized-level error; it is a total function. -/
theorem ParseLevel_spec :
    ParseLevel "debug" = (LevelDebug, none) ∧
    ParseLevel "info" = (LevelInfo, none) ∧
    ParseLevel "warn" = (LevelWarn, none) ∧
    ParseLevel "warning" = (LevelWarn, none) ∧
    ParseLevel "error" = (LevelError, none) ∧
    ∀ s : String,
      s ∉ (["debug", "info", "warn", "warning", "error"] : List String) →
      ParseLevel s = (LevelInfo, some ("unknown slog level: " ++ s)) := by
  refine ⟨by decide, by decide, by decide, by decide, by decide, ?_⟩
  intro s hs
  simp only [List.mem_cons, List.not_mem_nil, or_false, not_or] at hs
  obtain ⟨h1, h2, h3, h4, h5⟩ := hs
  simp [ParseLevel, h1, h2, h3, h4, h5]

/-- C7: the message of the record the handler builds is the configured
base message, with gin's error summary appended exactly when at least
one error was accumulated in the context; the emitted record (absent a
record transform) carries that same message. -/
theorem message_errors_append (cfg : Config) (c : GinContext) (path : String) :
    (c.errors ≠ [] →
      (buildRecord cfg c path).msg =
        cfg.message ++ " with errors: " ++ ginErrorsString c.errors) ∧
    (c.errors = [] → (buildRecord cfg c path).msg = cfg.message) ∧
    (∀ r ∈ (runHandler cfg c).emitted, cfg.context = none →
      r.msg = (buildRecord cfg c (requestPath c)).msg) := by
  refine ⟨?_, ?_, ?_⟩
  · intro h
    have hl : c.errors.length > 0 := List.length_pos.mpr h
    simp [buildRecord, hl]
  · intro h
    simp [buildRecord, h]
  · intro r hr hctx
    simp only [runHandler] at hr
    rcases hb : shouldSkipLogging (requestPath c) cfg.skipPath cfg c <;>
      simp [hb] at hr
    rw [hr]
    simp [finalRecord, hctx]

/-- C8: handling a request leaves the configuration unchanged, so a
later request under the resulting configuration behaves exactly as
under the original one. -/
theorem config_unchanged (cfg : Config) (c : GinContext) :
    (runHandler cfg c).finalConfig = cfg ∧
    ∀ c2 : GinContext,
      runHandler (runHandler cfg c).finalConfig c2 = runHandler cfg c2 :=
  ⟨rfl, fun _ => rfl⟩

/-- C4, counterexample: under the default configuration a logged
request produces exactly one record, and that record has no `query`,
`route` or `referer` field — the claim's required field set is not
emitted. -/
theorem record_fields_counterexample :
    (runHandler defaultConfig ctxPlain).emitted.length = 1 ∧
    ∀ r ∈ (runHandler defaultConfig ctxPlain).emitted,
      "query" ∉ r.attrs.map Prod.fst ∧
      "route" ∉ r.attrs.map Prod.fst ∧
      "referer" ∉ r.attrs.map Prod.fst := by decide

/-- C4, amended: absent a record transform, every emitted record
carries exactly the fields status, method, path, ip, latency,
user_agent and body_size, in that order; the query is folded into the
path field rather than emitted separately, and no route, referer or
headers field exists. -/
theorem record_fields_exact (cfg : Config) (c : GinContext) (r : Record)
    (hr : r ∈ (runHandler cfg c).emitted) (hctx : cfg.context = none) :
    r.attrs.map Prod.fst =
      ["status", "method", "path", "ip", "latency", "user_agent", "body_size"] := by
  simp only [runHandler] at hr
  rcases hb : shouldSkipLogging (requestPath c) cfg.skipPath cfg c <;>
    simp [hb] at hr
  rw [hr]
  simp [finalRecord, hctx, buildRecord]

/-- C4, witness: the amended field list evaluated on a concrete
tracked request. -/
theorem record_fields_exact_witness :
    (finalRecord defaultConfig ctxPlain (requestPath ctxPlain)).attrs.map Prod.fst =
      ["status", "method", "path", "ip", "latency", "user_agent", "body_size"] :=
  record_fields_exact defaultConfig ctxPlain _ (by decide) rfl

/-- C5: with header inclusion enabled, the attached `headers` mapping
holds exactly the request headers (name and values unmodified) whose
name does not case-insensitively match any configured hidden name. -/
theorem headers_redaction (rawHidden : List String)
    (req : List (String × List String)) (r : Record) :
    ∃ m, ("headers", AttrVal.hdrs m) ∈
        (attachHeaders
          { withRequestHeader := true,
            hiddenRequestHeaders := mkHiddenRequestHeaders rawHidden }
          req r).attrs ∧
      ∀ h, h ∈ m ↔ (h ∈ req ∧ ∀ e ∈ rawHidden, h.1.toLower ≠ e.toLower) := by
  refine ⟨filterHeaders (mkHiddenRequestHeaders rawHidden) req, ?_, ?_⟩
  · simp [attachHeaders]
  · intro h
    simp [filterHeaders, List.mem_filter, mkHiddenRequestHeaders]
    intro _
    constructor <;> intro hx e he heq <;> exact hx e he heq.symm

/-- C6, counterexample: with an always-true custom skip predicate the
trace of one invocation evaluates the skip decision at step 1, before
the delegation to the downstream chain at step 3 — not after the chain
returns as claimed. -/
theorem skip_eval_order_counterexample :
    (runHandler cfgSkipAll ctxPlain).events.findIdx isEvalSkip = 1 ∧
    (runHandler cfgSkipAll ctxPlain).events.findIdx isNext = 3 ∧
    (runHandler cfgSkipAll ctxPlain).events.findIdx isEvalSkip <
      (runHandler cfgSkipAll ctxPlain).events.findIdx isNext := by decide

/-- C6, amended: the skip decision (custom predicate included) is
evaluated before the downstream chain runs, and when it decides to
skip, the handler emits nothing — its trace holds no dispatch event. -/
theorem skip_eval_before_next (cfg : Config) (c : GinContext) :
    (runHandler cfg c).events.findIdx isEvalSkip <
      (runHandler cfg c).events.findIdx isNext ∧
    (shouldSkipLogging (requestPath c) cfg.skipPath cfg c = true →
      (runHandler cfg c).emitted = [] ∧
      ∀ e ∈ (runHandler cfg c).events, isEmit e = false) := by
  constructor
  · simp [runHandler, List.findIdx_cons, isEvalSkip, isNext]
  · intro hb
    simp only [runHandler, hb]
    refine ⟨by simp, ?_⟩
    intro e he
    simp at he
    rcases he with h | h | h | h <;> rw [h] <;> rfl

/-- C9: the handler stores the per-request logger (the base logger, or
the configured transform applied to it) under the fixed key
`_gin-contrib/logger_` before delegating to the chain — also for
skipped requests — and `Get` retrieves exactly it, while `Get` on a
fresh context in which the middleware never ran finds nothing (the Go
code panics there). -/
theorem logger_stored_and_get (cfg : Config) (c : GinContext) :
    loggerKey = "_gin-contrib/logger_" ∧
    ginGet (runHandler cfg c).keys = some (requestLogger cfg c) ∧
    (cfg.logger = none →
      ginGet (runHandler cfg c).keys = some (baseLogger cfg)) ∧
    (∀ f, cfg.logger = some f →
      ginGet (runHandler cfg c).keys = some (f c (baseLogger cfg))) ∧
    (runHandler cfg c).events.findIdx isSetLogger <
      (runHandler cfg c).events.findIdx isNext ∧
    ginGet ([] : List (String × Logger)) = none := by
  refine ⟨rfl, ?_, ?_, ?_, ?_, rfl⟩
  · simp [runHandler, ctxSet, ginGet, lookupA]
  · intro h
    simp [runHandler, ctxSet, ginGet, lookupA, requestLogger, h]
  · intro f h
    simp [runHandler, ctxSet, ginGet, lookupA, requestLogger, h]
  · simp [runHandler, List.findIdx_cons, isSetLogger, isNext]

/-- C10: the key of the path-level lookup is the request path with the
raw query appended whenever the query is non-empty; consequently, for
such a request, deleting every path-level entry keyed by the bare path
changes nothing about the resolved level. -/
theorem pathLevels_key_includes_query (cfg : Config) (c : GinContext) :
    (c.rawQuery ≠ "" → requestPath c = c.urlPath ++ "?" ++ c.rawQuery) ∧
    (∀ r ∈ (runHandler cfg c).emitted, cfg.context = none →
      r.level = getLogLevel cfg c (requestPath c)) ∧
    (c.rawQuery ≠ "" →
      getLogLevel cfg c (requestPath c) =
        getLogLevel
          { cfg with pathLevels := cfg.pathLevels.filter fun p => p.1 != c.urlPath }
          c (requestPath c)) := by
  refine ⟨?_, ?_, ?_⟩
  · intro h
    simp [requestPath, h]
  · intro r hr hctx
    simp only [runHandler] at hr
    rcases hb : shouldSkipLogging (requestPath c) cfg.skipPath cfg c <;>
      simp [hb] at hr
    rw [hr]
    simp [finalRecord, hctx, buildRecord]
  · intro h
    have hne : requestPath c ≠ c.urlPath := requestPath_ne_urlPath c h
    simp only [getLogLevel]
    rw [lookupA_filter_ne cfg.pathLevels (requestPath c) c.urlPath hne]

end GinSlog
